import Mathlib

/-!
Verification development for the adaptive video-frame payload compressor in
`src/services/aiAnalysisService.ts` (`AIAnalysisService.compressFrames` and
`AIAnalysisService.analyzeVideoFrames`).

Modelling conventions:
* A JavaScript string is modelled as a `List Char` (`JStr`); `String.length`
  in the source becomes `List.length` here.  All strings the byte-size
  accounting touches (base64 data, JSON punctuation) are ASCII, so character
  count and byte count coincide.
* A `Buffer` (frame) is an opaque type `F`.  Everything the `sharp` image
  library does to a buffer is abstracted into a `SharpEngine F`: one field per
  distinct sharp pipeline appearing in the source, each returning
  `Except Unit F` (success with the produced buffer, or a thrown error).
  `sharp` is deterministic for a fixed input, which the functional model
  captures (the two identical `metadata()` calls in the source read the same
  field).
* JavaScript numbers: every payload size is an exact integer byte count; the
  source compares `payloadSize / (1024*1024)` against integer MB thresholds,
  and since the byte count is far below 2^53 and the divisor is a power of
  two, the floating-point comparison is exact and equals the `Nat` comparison
  `payloadSize > t * 1048576` used here.  `Math.round` on non-negative
  arguments is `round` on `Rat` (half rounds up in both).
* Fallible code returns `Except`; a rejected `Promise.all` is the error of
  the least failing index (the batch map in the source attaches the index to
  the thrown error).
-/

/-- JavaScript string, modelled as a list of characters. -/
abbrev JStr := List Char

/-- Character list of a Lean string literal (used for JSON punctuation). -/
def toJ (s : String) : JStr := s.toList

/-- JSON string quoting as `JSON.stringify` performs it on base64 data
(base64 alphabet needs no escaping). -/
def jsonQuote (s : JStr) : JStr := '"' :: (s ++ ['"'])

/-- Remaining elements of a JSON array, each preceded by a comma, then the
closing bracket. -/
def jsonArrTail : List JStr → JStr
  | [] => [']']
  | s :: rest => (',' :: jsonQuote s) ++ jsonArrTail rest

/-- JSON array of pre-quoted strings: `[` ++ comma-separated quoted elements ++ `]`,
as `JSON.stringify` renders `frames: base64Frames`. -/
def jsonArr : List JStr → JStr
  | [] => toJ "[]"
  | s :: rest => ('[' :: jsonQuote s) ++ jsonArrTail rest

/-- Serialization of the outbound envelope
`JSON.stringify({ frames, sensorData?, userProfile? })` (source lines
375–386): keys in insertion order, and a key whose value is `undefined`
(modelled `none`) is omitted.  `sensorData` / `userProfile` are opaque
pass-through values carried as their own JSON text. -/
def stringifyOutbound (b64s : List JStr) (sd up : Option JStr) : JStr :=
  toJ "\x7b\"frames\":" ++ jsonArr b64s
    ++ (match sd with | none => [] | some s => toJ ",\"sensorData\":" ++ s)
    ++ (match up with | none => [] | some s => toJ ",\"userProfile\":" ++ s)
    ++ ['\x7d']

/-- Serialization used by the size measurement,
`JSON.stringify({ frames: base64Frames, sensorData })` (source lines 216,
306, 345, 357): same envelope without a `userProfile` key. -/
def stringifyEnvelope (b64s : List JStr) (sd : Option JStr) : JStr :=
  stringifyOutbound b64s sd none

/-- Result of `sharp(frame).metadata()`: the `width`/`height` fields with `0`
standing for "missing or zero" — the source tests them with JavaScript
truthiness (`!metadata.width`), which conflates `undefined` and `0`. -/
structure Meta where
  width : Nat
  height : Nat
deriving DecidableEq, Repr

/-- Abstraction of all sharp pipelines used by `compressFrames`, one field per
distinct pipeline in the source; each models the awaited promise outcome for
a given input buffer and settings. -/
structure SharpEngine (F : Type) where
  /-- `sharp(frame, {failOn:'none', limitInputPixels}).metadata()` (lines 74–79 and 142–143). -/
  meta : F → Except Unit Meta
  /-- `image.png().jpeg({quality,...}).toBuffer()` — re-encode with no resize (lines 84–91). -/
  reencodeNoResize : F → Nat → Except Unit F
  /-- `image.resize(w,h,{fit:'inside',withoutEnlargement:true}).jpeg({quality,...})` (lines 111–121). -/
  resizeJpeg : F → Nat → Nat → Nat → Except Unit F
  /-- `image.resize(w,h,{fit:'inside',withoutEnlargement:true}).png().jpeg({quality,...})` (lines 125–136). -/
  resizePngJpeg : F → Nat → Nat → Nat → Except Unit F
  /-- `image.png().resize(w,h,{fit:'inside',withoutEnlargement:true}).jpeg({quality,...})` (lines 160–171). -/
  pngResizeJpeg : F → Nat → Nat → Nat → Except Unit F
  /-- `sharp(frame,{failOn:'none'}).resize(320,240,{fit:'inside',withoutEnlargement:false}).jpeg({quality:60,...})` (lines 178–182). -/
  tiny : F → Except Unit F
  /-- `frame.length` — byte length of a buffer. -/
  len : F → Nat
  /-- `frame.toString('base64')`. -/
  b64 : F → JStr

/-- `Math.round` for the non-negative rationals arising here: round half up. -/
def jsRound (q : Rat) : Nat := (round q).toNat

/-- Lines 95–100: uniform scale ratio `min(targetW/w, targetH/h)` and the
rounded new dimensions. -/
def newDims (tw th w h : Nat) : Nat × Nat :=
  let ratio : Rat := min ((tw : Rat) / (w : Rat)) ((th : Rat) / (h : Rat))
  (jsRound ((w : Rat) * ratio), jsRound ((h : Rat) * ratio))

/-- Lines 153–155: forced fallback parameters
`(min(newW,480), min(newH,360), max(quality-15,60))`. -/
def forceParams (nW nH q : Nat) : Nat × Nat × Nat :=
  (min nW 480, min nH 360, max (q - 15) 60)

/-- Lines 177–187: the final minimal 320×240 attempt; on failure the
per-frame hard error carrying the frame index is thrown (line 186). -/
def tinyAttempt {F : Type} (E : SharpEngine F) (idx : Nat) (f : F) : Except Nat F :=
  match E.tiny f with
  | .ok b => .ok b
  | .error _ => .error idx

/-- Lines 138–191: the outer catch of the per-frame ladder.  Re-read the
metadata; if both dimensions are truthy, try the aggressive forced resize
(png → resize → jpeg), falling back to the minimal attempt on failure; if the
metadata read itself throws, go straight to the minimal attempt; if the
metadata succeeds but a dimension is falsy, control falls through to the
line-190 throw — without making the minimal attempt. -/
def fallbackLadder {F : Type} (E : SharpEngine F) (idx : Nat) (f : F) (tw th q : Nat) :
    Except Nat F :=
  match E.meta f with
  | .error _ => tinyAttempt E idx f
  | .ok m =>
    if m.width ≠ 0 ∧ m.height ≠ 0 then
      let nd := newDims tw th m.width m.height
      let fp := forceParams nd.1 nd.2 q
      match E.pngResizeJpeg f fp.1 fp.2.1 fp.2.2 with
      | .ok b => .ok b
      | .error _ => tinyAttempt E idx f
    else
      .error idx

/-- Lines 70–191: re-encode one frame.  Read metadata; with a falsy dimension
re-encode through PNG without resizing; otherwise try the direct lossy
resize+jpeg, then the PNG-intermediate resize; any failure drops into the
outer-catch ladder `fallbackLadder`. -/
def compressOneFrame {F : Type} (E : SharpEngine F) (idx : Nat) (f : F) (tw th q : Nat) :
    Except Nat F :=
  match E.meta f with
  | .error _ => fallbackLadder E idx f tw th q
  | .ok m =>
    if m.width = 0 ∨ m.height = 0 then
      match E.reencodeNoResize f q with
      | .ok b => .ok b
      | .error _ => fallbackLadder E idx f tw th q
    else
      let nd := newDims tw th m.width m.height
      match E.resizeJpeg f nd.1 nd.2 q with
      | .ok b => .ok b
      | .error _ =>
        match E.resizePngJpeg f nd.1 nd.2 q with
        | .ok b => .ok b
        | .error _ => fallbackLadder E idx f tw th q

/-- Lines 69–195: `frames.map((frame, index) => ...)` under `Promise.all`,
carrying the running index; the whole batch fails with the index of the first
frame whose ladder is exhausted. -/
def compressFramesGo {F : Type} (E : SharpEngine F) (tw th q : Nat) :
    Nat → List F → Except Nat (List F)
  | _, [] => .ok []
  | i, f :: rest =>
    match compressOneFrame E i f tw th q with
    | .error e => .error e
    | .ok g =>
      match compressFramesGo E tw th q (i + 1) rest with
      | .error e => .error e
      | .ok gs => .ok (g :: gs)

/-- `AIAnalysisService.compressFrames` at the batch level. -/
def compressFrames {F : Type} (E : SharpEngine F) (fs : List F) (tw th q : Nat) :
    Except Nat (List F) :=
  compressFramesGo E tw th q 0 fs

/-- One megabyte in bytes; `payloadSize / (1024 * 1024)` in the source. -/
def MBbytes : Nat := 1048576

/-- `MAX_FRAMES = 12` (line 204). -/
def MAX_FRAMES : Nat := 12

/-- `MAX_PAYLOAD_MB = 20` (line 205). -/
def MAX_PAYLOAD_MB : Nat := 20

/-- `COMPRESSION_THRESHOLD_MB = 10` (line 206). -/
def COMPRESSION_THRESHOLD_MB : Nat := 10

/-- `TARGET_PAYLOAD_MB = 10` (line 207). -/
def TARGET_PAYLOAD_MB : Nat := 10

/-- Measured payload size: `JSON.stringify({frames: base64Frames, sensorData}).length`
(lines 215–216). -/
def measureSize {F : Type} (E : SharpEngine F) (fs : List F) (sd : Option JStr) : Nat :=
  (stringifyEnvelope (fs.map E.b64) sd).length

/-- Lines 234–241: starting compression level as a function of the initial
payload size alone (`startLevel`, default 2). -/
def startLevel (sizeBytes : Nat) : Nat :=
  if sizeBytes > 25 * MBbytes then 3
  else if sizeBytes > 18 * MBbytes then 3
  else if sizeBytes > 15 * MBbytes then 2
  else 2

/-- Line 252: `currentLevel = compressionAttempts === 1 ? startLevel : compressionAttempts`. -/
def levelForAttempt (start attempt : Nat) : Nat :=
  if attempt = 1 then start else attempt

/-- Lines 254–274: the compression-profile ladder
`(targetWidth, targetHeight, quality)` selected by level. -/
def profileFor (level : Nat) : Nat × Nat × Nat :=
  if level = 1 then (1280, 720, 80)
  else if level = 2 then (960, 540, 75)
  else if level = 3 then (640, 360, 70)
  else (480, 270, 65)

/-- Mutable locals of `analyzeVideoFrames` threaded through the compression
loop: the frame buffers, the base64 strings of the last measurement, the last
measured size, the attempt counter, and a ghost log of the frame-list length
recorded after each assignment to the frames variable (most recent first). -/
structure LoopSt (F : Type) where
  frames : List F
  b64s : List JStr
  size : Nat
  attempts : Nat
  lenLog : List Nat

/-- Lines 243–321: one-pass-per-call model of the
`while (payloadSizeMB > TARGET && attempts < max)` loop.  `fuel` is
`maxCompressionAttempts - compressionAttempts`, so `fuel = 0` is the
`attempts < max` guard failing.  Each iteration: pick the profile from
`levelForAttempt`, re-encode the whole batch (a frame failure aborts with its
index), compute the attempt's compression ratio over buffer lengths, cut to 6
frames if the ratio is under 10% from attempt 2 on, re-measure, stop if at or
under target, and cut to 6 frames (without re-measuring) if still over 18 MB
from attempt 2 on. -/
def loopGo {F : Type} (E : SharpEngine F) (sd : Option JStr) (initSize : Nat) :
    Nat → LoopSt F → Except Nat (LoopSt F)
  | 0, st => .ok st
  | fuel + 1, st =>
    if st.size ≤ TARGET_PAYLOAD_MB * MBbytes then .ok st
    else
      let attempts := st.attempts + 1
      let prof := profileFor (levelForAttempt (startLevel initSize) attempts)
      match compressFrames E st.frames prof.1 prof.2.1 prof.2.2 with
      | .error i => .error i
      | .ok compressed =>
        let totalComp := (compressed.map E.len).sum
        let totalOrig := (st.frames.map E.len).sum
        -- `compressionRatio < 10` (line 292); with `totalOrig = 0` the source
        -- sets the ratio to 0, which is below 10.
        let ratioLow : Prop := totalOrig = 0 ∨ (totalOrig - totalComp) * 10 < totalOrig
        let log1 := compressed.length :: st.lenLog
        let frames2 :=
          if ratioLow ∧ 2 ≤ attempts ∧ 6 < compressed.length then compressed.take 6
          else compressed
        let log2 :=
          if ratioLow ∧ 2 ≤ attempts ∧ 6 < compressed.length then frames2.length :: log1
          else log1
        let b64s2 := frames2.map E.b64
        let size2 := (stringifyEnvelope b64s2 sd).length
        if size2 ≤ TARGET_PAYLOAD_MB * MBbytes then
          .ok { frames := frames2, b64s := b64s2, size := size2, attempts := attempts,
                lenLog := log2 }
        else
          let cut18 : Prop := size2 > 18 * MBbytes ∧ 6 < frames2.length ∧ 2 ≤ attempts
          let frames3 := if cut18 then frames2.take 6 else frames2
          let log3 := if cut18 then frames3.length :: log2 else log2
          loopGo E sd initSize fuel
            { frames := frames3, b64s := b64s2, size := size2, attempts := attempts,
              lenLog := log3 }

/-- Controller errors (section 7 of the spec): empty input (line 200), a
frame whose ladder was exhausted (propagated out of `compressFrames`), and
the oversized-payload hard failure carrying the measured byte size and the
configured maximum in MB (lines 362–365). -/
inductive AnalyzeErr where
  | emptyInput : AnalyzeErr
  | frameFailed (idx : Nat) : AnalyzeErr
  | payloadTooLarge (sizeBytes : Nat) (maxMB : Nat) : AnalyzeErr
deriving DecidableEq, Repr

/-- State of `analyzeVideoFrames` at the point of the outbound call: the
frames variable, the base64 strings the payload is built from, the last
measured size, the attempt count, the ghost length log, and the serialized
outbound body. -/
structure AnalyzeOut (F : Type) where
  frames : List F
  b64s : List JStr
  size : Nat
  attempts : Nat
  lenLog : List Nat
  payload : JStr

/-- Lines 330–336: frame-count target of the post-loop hard reduction. -/
def targetFrameCount (sizeBytes : Nat) : Nat :=
  if sizeBytes > 30 * MBbytes then 6
  else if sizeBytes > 25 * MBbytes then 6
  else if sizeBytes > 20 * MBbytes then 8
  else 8

/-- Lines 362–370 and 375–386: the hard-maximum check, then the outbound
payload built from `base64Frames`, `sensorData`, `userProfile`. -/
def finalCheck {F : Type} (_E : SharpEngine F) (sd up : Option JStr) (st : LoopSt F) :
    Except AnalyzeErr (AnalyzeOut F) :=
  if st.size > MAX_PAYLOAD_MB * MBbytes then
    .error (.payloadTooLarge st.size MAX_PAYLOAD_MB)
  else
    .ok { frames := st.frames, b64s := st.b64s, size := st.size,
          attempts := st.attempts, lenLog := st.lenLog,
          payload := stringifyOutbound st.b64s sd up }

/-- Lines 326–360: post-loop escalation.  Over the hard maximum: truncate to
the size-dependent target count when more frames than that remain, and
re-measure.  Otherwise, still over 15 MB with more than 8 frames: truncate to
the first 8 and re-measure.  Then the hard-maximum check. -/
def escalate {F : Type} (E : SharpEngine F) (sd up : Option JStr) (st : LoopSt F) :
    Except AnalyzeErr (AnalyzeOut F) :=
  if st.size > MAX_PAYLOAD_MB * MBbytes then
    let tfc := targetFrameCount st.size
    if tfc < st.frames.length then
      let frames2 := st.frames.take tfc
      let b64s2 := frames2.map E.b64
      let size2 := (stringifyEnvelope b64s2 sd).length
      finalCheck E sd up
        { frames := frames2, b64s := b64s2, size := size2, attempts := st.attempts,
          lenLog := frames2.length :: st.lenLog }
    else finalCheck E sd up st
  else if st.size > 15 * MBbytes ∧ 8 < st.frames.length then
    let frames2 := st.frames.take 8
    let b64s2 := frames2.map E.b64
    let size2 := (stringifyEnvelope b64s2 sd).length
    finalCheck E sd up
      { frames := frames2, b64s := b64s2, size := size2, attempts := st.attempts,
        lenLog := frames2.length :: st.lenLog }
  else finalCheck E sd up st

/-- `AIAnalysisService.analyzeVideoFrames` (lines 198–386) up to the point of
the outbound HTTP call: reject an empty batch, cap at `MAX_FRAMES`, measure,
and when over the compression threshold run the loop and the escalation;
otherwise accept the batch as measured. -/
def analyzeVideoFrames {F : Type} (E : SharpEngine F) (frames0 : List F)
    (sd up : Option JStr) : Except AnalyzeErr (AnalyzeOut F) :=
  if frames0.isEmpty then .error .emptyInput
  else
    let frames1 := frames0.take MAX_FRAMES
    let b64s := frames1.map E.b64
    let size := (stringifyEnvelope b64s sd).length
    if size > COMPRESSION_THRESHOLD_MB * MBbytes then
      match loopGo E sd size 4
          { frames := frames1, b64s := b64s, size := size, attempts := 0,
            lenLog := [frames1.length] } with
      | .error i => .error (.frameFailed i)
      | .ok st => escalate E sd up st
    else
      .ok { frames := frames1, b64s := b64s, size := size, attempts := 0,
            lenLog := [frames1.length],
            payload := stringifyOutbound b64s sd up }

/-! ### Basic facts about the per-frame ladder and the batch map -/

/-- Errors of the minimal attempt carry the frame's own index. -/
theorem tinyAttempt_error_eq {F : Type} {E : SharpEngine F} {idx e : Nat} {f : F}
    (h : tinyAttempt E idx f = .error e) : e = idx := by
  unfold tinyAttempt at h
  cases hx : E.tiny f <;> simp only [hx] at h
  · simpa using h.symm
  · exact absurd h (by simp)

/-- Errors of the outer-catch ladder carry the frame's own index. -/
theorem fallbackLadder_error_eq {F : Type} {E : SharpEngine F} {idx : Nat} {f : F}
    {tw th q e : Nat} (h : fallbackLadder E idx f tw th q = .error e) : e = idx := by
  unfold fallbackLadder at h
  cases hm : E.meta f <;> simp only [hm] at h
  · exact tinyAttempt_error_eq h
  · rename_i m
    split at h
    · cases hp : E.pngResizeJpeg f (forceParams (newDims tw th m.width m.height).1
          (newDims tw th m.width m.height).2 q).1
          (forceParams (newDims tw th m.width m.height).1
          (newDims tw th m.width m.height).2 q).2.1
          (forceParams (newDims tw th m.width m.height).1
          (newDims tw th m.width m.height).2 q).2.2 <;> simp only [hp] at h
      · exact tinyAttempt_error_eq h
      · exact absurd h (by simp)
    · simpa using h.symm

/-- Every error produced by the per-frame ladder carries the frame's own
index. -/
theorem compressOneFrame_error_eq {F : Type} {E : SharpEngine F} {idx : Nat} {f : F}
    {tw th q e : Nat} (h : compressOneFrame E idx f tw th q = .error e) : e = idx := by
  unfold compressOneFrame at h
  cases hm : E.meta f <;> simp only [hm] at h
  · exact fallbackLadder_error_eq h
  · rename_i m
    split at h
    · cases hr : E.reencodeNoResize f q <;> simp only [hr] at h
      · exact fallbackLadder_error_eq h
      · exact absurd h (by simp)
    · cases hr1 : E.resizeJpeg f (newDims tw th m.width m.height).1
          (newDims tw th m.width m.height).2 q <;> simp only [hr1] at h
      · cases hr2 : E.resizePngJpeg f (newDims tw th m.width m.height).1
            (newDims tw th m.width m.height).2 q <;> simp only [hr2] at h
        · exact fallbackLadder_error_eq h
        · exact absurd h (by simp)
      · exact absurd h (by simp)

/-- Characterisation of a successful batch map: the output has the input's
length and each output frame is the successful re-encode of the input frame
at the same position (with the absolute index offset `k`). -/
theorem compressFramesGo_ok {F : Type} {E : SharpEngine F} {tw th q : Nat} :
    ∀ (k : Nat) (fs out : List F), compressFramesGo E tw th q k fs = .ok out →
      out.length = fs.length ∧
      ∀ i (hi : i < fs.length), ∃ ho : i < out.length,
        compressOneFrame E (k + i) (fs.get ⟨i, hi⟩) tw th q = .ok (out.get ⟨i, ho⟩)
  | _, [], out, h => by
    simp only [compressFramesGo] at h
    cases h
    exact ⟨rfl, fun i hi => absurd hi (by simp)⟩
  | k, f :: rest, out, h => by
    simp only [compressFramesGo] at h
    split at h
    · exact absurd h (by simp)
    · rename_i g hg
      split at h
      · exact absurd h (by simp)
      · rename_i gs hgs
        cases h
        obtain ⟨hlen, hpt⟩ := compressFramesGo_ok (k + 1) rest gs hgs
        refine ⟨by simpa using hlen, ?_⟩
        intro i hi
        match i with
        | 0 => exact ⟨by simp, by simpa using hg⟩
        | i + 1 =>
          obtain ⟨ho, hc⟩ := hpt i (by simpa using hi)
          exact ⟨by simpa using ho, by simpa [Nat.add_comm, Nat.add_assoc, Nat.add_left_comm] using hc⟩

/-- Characterisation of a failed batch map: the error is the absolute index
of the first failing frame — that frame's ladder was exhausted and every
earlier frame re-encoded successfully. -/
theorem compressFramesGo_error {F : Type} {E : SharpEngine F} {tw th q : Nat} :
    ∀ (k : Nat) (fs : List F) (e : Nat), compressFramesGo E tw th q k fs = .error e →
      k ≤ e ∧ ∃ hi : e - k < fs.length,
        compressOneFrame E e (fs.get ⟨e - k, hi⟩) tw th q = .error e ∧
        ∀ i (hik : i < fs.length), k + i < e →
          ∃ g, compressOneFrame E (k + i) (fs.get ⟨i, hik⟩) tw th q = .ok g
  | _, [], e, h => by simp [compressFramesGo] at h
  | k, f :: rest, e, h => by
    simp only [compressFramesGo] at h
    split at h
    · rename_i herr
      cases h
      have hek : e = k := compressOneFrame_error_eq herr
      subst hek
      refine ⟨Nat.le_refl _, by simp, by simpa using herr, ?_⟩
      intro i _ hlt
      omega
    · rename_i g hg
      split at h
      · rename_i herr
        cases h
        obtain ⟨hke, hi, hfail, hpre⟩ := compressFramesGo_error (k + 1) rest e herr
        refine ⟨Nat.le_of_succ_le hke, ?_⟩
        have hsub : e - k = (e - (k + 1)) + 1 := by omega
        refine ⟨by simp [hsub]; omega, ?_, ?_⟩
        · have := hfail
          simpa [hsub] using this
        · intro i hik hlt
          match i with
          | 0 => exact ⟨g, by simpa using hg⟩
          | i + 1 =>
            obtain ⟨g', hg'⟩ := hpre i (by simpa using hik) (by omega)
            exact ⟨g', by simpa [Nat.add_comm, Nat.add_assoc, Nat.add_left_comm] using hg'⟩
      · exact absurd h (by simp)

/-- Length preservation of a successful `compressFrames` call. -/
theorem compressFrames_ok_length {F : Type} {E : SharpEngine F} {fs out : List F}
    {tw th q : Nat} (h : compressFrames E fs tw th q = .ok out) : out.length = fs.length :=
  (compressFramesGo_ok 0 fs out h).1

/-- Pointwise characterisation of a successful `compressFrames` call. -/
theorem compressFrames_ok_pointwise {F : Type} {E : SharpEngine F} {fs out : List F}
    {tw th q : Nat} (h : compressFrames E fs tw th q = .ok out) :
    ∀ i (hi : i < fs.length), ∃ ho : i < out.length,
      compressOneFrame E i (fs.get ⟨i, hi⟩) tw th q = .ok (out.get ⟨i, ho⟩) := by
  intro i hi
  obtain ⟨ho, hc⟩ := (compressFramesGo_ok 0 fs out h).2 i hi
  exact ⟨ho, by simpa using hc⟩

/-- C4: if the `i`-th frame's local fallback ladder is exhausted, the whole
batch call fails, and it fails with the index of a frame whose ladder was
exhausted (the first such index, which is at most `i`); a successful batch
call always returns exactly one output frame per input frame, so a failed
frame is never silently dropped. -/
theorem frame_failure_aborts_batch {F : Type} (E : SharpEngine F) (fs : List F)
    (tw th q i : Nat) (hi : i < fs.length)
    (hfail : compressOneFrame E i (fs.get ⟨i, hi⟩) tw th q = .error i) :
    (∀ out, compressFrames E fs tw th q ≠ .ok out) ∧
    ∃ j, j ≤ i ∧ ∃ hj : j < fs.length,
      compressFrames E fs tw th q = .error j ∧
      compressOneFrame E j (fs.get ⟨j, hj⟩) tw th q = .error j := by
  have hnotok : ∀ out, compressFrames E fs tw th q ≠ .ok out := by
    intro out hok
    obtain ⟨ho, hc⟩ := compressFrames_ok_pointwise hok i hi
    rw [hfail] at hc
    exact absurd hc (by simp)
  refine ⟨hnotok, ?_⟩
  match hres : compressFrames E fs tw th q with
  | .ok out => exact absurd hres (hnotok out)
  | .error e =>
    obtain ⟨-, he, hefail, hpre⟩ := compressFramesGo_error 0 fs e hres
    have hje : e ≤ i := by
      by_contra hgt
      obtain ⟨g, hg⟩ := hpre i hi (by omega)
      rw [show 0 + i = i by omega, hfail] at hg
      exact absurd hg (by simp)
    exact ⟨e, hje, by simpa using he, rfl, by simpa using hefail⟩

/-! ### Profile selection (C5) -/

/-- C5: evidence against strict escalation.  At an initial payload of 19 MB
the starting level is 3, so attempt 1 compresses at the rung-3 profile
(640×360, quality 70); attempt 2 then uses `currentLevel = 2`, the rung-2
profile (960×540, quality 75) — larger target dimensions and higher quality
than the attempt before it, contradicting monotone escalation. -/
theorem attempt2_regresses_after_aggressive_start :
    startLevel (19 * MBbytes) = 3 ∧
    profileFor (levelForAttempt (startLevel (19 * MBbytes)) 1) = (640, 360, 70) ∧
    profileFor (levelForAttempt (startLevel (19 * MBbytes)) 2) = (960, 540, 75) ∧
    (profileFor (levelForAttempt (startLevel (19 * MBbytes)) 1)).1 <
      (profileFor (levelForAttempt (startLevel (19 * MBbytes)) 2)).1 ∧
    (profileFor (levelForAttempt (startLevel (19 * MBbytes)) 1)).2.2 <
      (profileFor (levelForAttempt (startLevel (19 * MBbytes)) 2)).2.2 := by
  decide

/-! ### The skipped minimal attempt (C6) -/

/-- Engine exhibiting the line-190 path: the metadata of the frame reads with
falsy dimensions both times, the no-resize PNG re-encode fails, and the
minimal 320×240 attempt would succeed if it were ever made. -/
def skipEngine : SharpEngine Nat where
  meta := fun _ => .ok ⟨0, 0⟩
  reencodeNoResize := fun _ _ => .error ()
  resizeJpeg := fun _ _ _ _ => .error ()
  resizePngJpeg := fun _ _ _ _ => .error ()
  pngResizeJpeg := fun _ _ _ _ => .ok 1
  tiny := fun _ => .ok 2
  len := fun _ => 1
  b64 := fun _ => []

/-- C6: evidence that the final minimal attempt is not always made before the
per-frame hard error.  For a frame whose metadata reads with falsy
dimensions and whose PNG re-encode fails, the ladder raises the per-frame
error even though the minimal 320×240 attempt would have succeeded — the
fall-through at line 190 skips it (the source's own comment claims that line
is unreachable). -/
theorem minimal_attempt_skipped :
    skipEngine.tiny 0 = .ok 2 ∧
    compressOneFrame skipEngine 4 0 1280 720 80 = .error 4 :=
  ⟨rfl, rfl⟩

/-! ### No upscaling (C9) -/

/-- Modelled from the sharp library's documented `resize` semantics with
`fit: 'inside'`: scale uniformly by `min(targetW/w, targetH/h)`, and with
`withoutEnlargement: true` never scale above 1. -/
def sharpInsideDims (tw th w h : Nat) (withoutEnlargement : Bool) : Nat × Nat :=
  let s : Rat := min ((tw : Rat) / (w : Rat)) ((th : Rat) / (h : Rat))
  let s2 := if withoutEnlargement then min s 1 else s
  (jsRound ((w : Rat) * s2), jsRound ((h : Rat) * s2))

/-- Output dimensions of the normal re-encode path (lines 95–121): the source
computes `newWidth`/`newHeight` itself and passes them to
`resize(..., {fit:'inside', withoutEnlargement:true})`. -/
def reencodeOutDims (tw th w h : Nat) : Nat × Nat :=
  let nd := newDims tw th w h
  sharpInsideDims nd.1 nd.2 w h true

/-- Rounding a natural number is the identity. -/
theorem jsRound_natCast (n : Nat) : jsRound (n : Rat) = n := by
  simp [jsRound, round_natCast]

/-- Rounding is monotone from a natural lower bound. -/
theorem le_jsRound_of_le {n : Nat} {q : Rat} (h : (n : Rat) ≤ q) : n ≤ jsRound q := by
  have h1 : round ((n : Nat) : Rat) ≤ round q := by
    rw [round_eq, round_eq]
    exact Int.floor_mono (by linarith)
  rw [round_natCast] at h1
  simpa [jsRound] using Int.toNat_le_toNat h1

/-- C9: re-encoding a valid frame with a profile whose target dimensions are
at least the original dimensions never upscales — with `withoutEnlargement`
the produced dimensions are the original ones, hence bounded by them. -/
theorem reencode_never_upscales (tw th w h : Nat) (hw : 0 < w) (hh : 0 < h)
    (htw : w ≤ tw) (hth : h ≤ th) :
    (reencodeOutDims tw th w h).1 ≤ w ∧ (reencodeOutDims tw th w h).2 ≤ h := by
  have hwQ : (0 : Rat) < (w : Rat) := by exact_mod_cast hw
  have hhQ : (0 : Rat) < (h : Rat) := by exact_mod_cast hh
  have hr1 : (1 : Rat) ≤ (tw : Rat) / (w : Rat) :=
    (one_le_div hwQ).mpr (by exact_mod_cast htw)
  have hr2 : (1 : Rat) ≤ (th : Rat) / (h : Rat) :=
    (one_le_div hhQ).mpr (by exact_mod_cast hth)
  have hratio : (1 : Rat) ≤ min ((tw : Rat) / (w : Rat)) ((th : Rat) / (h : Rat)) :=
    le_min hr1 hr2
  have hnd1 : w ≤ (newDims tw th w h).1 := by
    apply le_jsRound_of_le
    exact le_mul_of_one_le_right (by positivity) hratio
  have hnd2 : h ≤ (newDims tw th w h).2 := by
    apply le_jsRound_of_le
    exact le_mul_of_one_le_right (by positivity) hratio
  have hs : (1 : Rat) ≤
      min (((newDims tw th w h).1 : Rat) / (w : Rat)) (((newDims tw th w h).2 : Rat) / (h : Rat)) :=
    le_min ((one_le_div hwQ).mpr (by exact_mod_cast hnd1))
      ((one_le_div hhQ).mpr (by exact_mod_cast hnd2))
  have hout : reencodeOutDims tw th w h = (w, h) := by
    show sharpInsideDims (newDims tw th w h).1 (newDims tw th w h).2 w h true = (w, h)
    unfold sharpInsideDims
    simp only [if_pos rfl, min_eq_right hs, if_true]
    rw [mul_one, mul_one, jsRound_natCast, jsRound_natCast]
  rw [hout]
  exact ⟨Nat.le_refl w, Nat.le_refl h⟩

/-- C9 witness: a 100×50 frame re-encoded toward a 1920×1080 profile keeps
its dimensions bounded by the original. -/
theorem reencode_never_upscales_witness :
    (reencodeOutDims 1920 1080 100 50).1 ≤ 100 ∧ (reencodeOutDims 1920 1080 100 50).2 ≤ 50 :=
  reencode_never_upscales 1920 1080 100 50 (by decide) (by decide) (by decide) (by decide)

/-! ### Provenance of frames across the run (C3) -/

/-- A frame derives from an input frame by zero or more successful per-frame
re-encodes (at whatever profile a compression attempt selected). -/
inductive Deriv {F : Type} (E : SharpEngine F) : F → F → Prop
  | refl (f : F) : Deriv E f f
  | step {f g h : F} (i tw th q : Nat) :
      Deriv E f g → compressOneFrame E i g tw th q = .ok h → Deriv E f h

/-- The current frame list is an index-aligned derivation of the original
input: it is at most as long, and the frame at position `i` derives from the
input frame at the same position `i`. -/
def FrameRel {F : Type} (E : SharpEngine F) (orig cur : List F) : Prop :=
  cur.length ≤ orig.length ∧
  ∀ i (hi : i < cur.length), ∃ hj : i < orig.length,
    Deriv E (orig.get ⟨i, hj⟩) (cur.get ⟨i, hi⟩)

/-- A list is index-aligned with itself. -/
theorem FrameRel_refl {F : Type} (E : SharpEngine F) (l : List F) : FrameRel E l l :=
  ⟨Nat.le_refl _, fun _i hi => ⟨hi, Deriv.refl _⟩⟩

/-- Truncating the current list preserves index alignment. -/
theorem FrameRel_take {F : Type} {E : SharpEngine F} {orig cur : List F}
    (h : FrameRel E orig cur) (n : Nat) : FrameRel E orig (cur.take n) := by
  obtain ⟨hlen, hpt⟩ := h
  have htl : (cur.take n).length ≤ cur.length := by simp
  refine ⟨Nat.le_trans htl hlen, ?_⟩
  intro i hi
  obtain ⟨hj, hd⟩ := hpt i (Nat.lt_of_lt_of_le hi htl)
  refine ⟨hj, ?_⟩
  have : (cur.take n).get ⟨i, hi⟩ = cur.get ⟨i, Nat.lt_of_lt_of_le hi htl⟩ := by
    simp [List.getElem_take]
  rw [this]
  exact hd

/-- A successful batch re-encode preserves index alignment: each output
frame extends the derivation of the input frame at its position. -/
theorem FrameRel_compress {F : Type} {E : SharpEngine F} {orig cur out : List F}
    {tw th q : Nat} (hc : compressFrames E cur tw th q = .ok out)
    (h : FrameRel E orig cur) : FrameRel E orig out := by
  obtain ⟨hlen, hpt⟩ := h
  have hl : out.length = cur.length := compressFrames_ok_length hc
  refine ⟨hl ▸ hlen, ?_⟩
  intro i hi
  have hic : i < cur.length := hl ▸ hi
  obtain ⟨hj, hd⟩ := hpt i hic
  obtain ⟨ho, hone⟩ := compressFrames_ok_pointwise hc i hic
  exact ⟨hj, Deriv.step i tw th q hd (by rw [hone])⟩

/-! ### The ghost length log (C8) -/

/-- Well-formedness of the ghost length log: its newest entry is the current
frame-list length, it is non-decreasing from newest to oldest (i.e. the
length never grew), and every recorded length is at most `MAX_FRAMES`. -/
def LogInv {F : Type} (st : LoopSt F) : Prop :=
  st.lenLog.head? = some st.frames.length ∧
  List.Chain' (· ≤ ·) st.lenLog ∧
  ∀ n ∈ st.lenLog, n ≤ MAX_FRAMES

/-- Pushing a new, not larger, length entry keeps the log well-formed. -/
theorem logInv_cons {log : List Nat} {m k : Nat} (hh : log.head? = some k) (hm : m ≤ k)
    (hch : List.Chain' (· ≤ ·) log) (hb : ∀ n ∈ log, n ≤ MAX_FRAMES) :
    List.Chain' (· ≤ ·) (m :: log) ∧ (∀ n ∈ m :: log, n ≤ MAX_FRAMES) := by
  have hkmem : k ∈ log := List.mem_of_mem_head? (by rw [hh]; rfl)
  refine ⟨List.chain'_cons'.mpr ⟨?_, hch⟩, ?_⟩
  · intro b hbmem
    rw [hh] at hbmem
    cases hbmem
    exact hm
  · intro n hn
    rcases List.mem_cons.mp hn with h1 | h2
    · exact h1 ▸ Nat.le_trans hm (hb k hkmem)
    · exact hb n h2

/-! ### The combined loop invariant -/

/-- Invariant carried through the compression loop: the frames are an
index-aligned derivation of the original input, the last measured size is
the serialized size of the recorded base64 strings, and the ghost length log
is well-formed. -/
def LoopInv {F : Type} (E : SharpEngine F) (sd : Option JStr) (orig : List F)
    (st : LoopSt F) : Prop :=
  FrameRel E orig st.frames ∧
  st.size = (stringifyEnvelope st.b64s sd).length ∧
  LogInv st

/-- Any state one loop iteration can build — the early-exit state or the
state handed to the next iteration, with or without either frame cut —
satisfies the invariant. -/
theorem loopInv_new {F : Type} {E : SharpEngine F} {sd : Option JStr} {orig : List F}
    {st : LoopSt F} {compressed frames2 frames3 : List F} {log2 log3 : List Nat}
    {tw th q a : Nat}
    (hinv : LoopInv E sd orig st)
    (hcomp : compressFrames E st.frames tw th q = .ok compressed)
    (hfr2 : frames2 = compressed ∨ frames2 = compressed.take 6)
    (hl2 : log2 = frames2.length :: compressed.length :: st.lenLog ∨
      (log2 = compressed.length :: st.lenLog ∧ frames2 = compressed))
    (hfr3 : frames3 = frames2 ∨ frames3 = frames2.take 6)
    (hl3 : log3 = frames3.length :: log2 ∨ (log3 = log2 ∧ frames3 = frames2)) :
    LoopInv E sd orig
      { frames := frames3, b64s := frames2.map E.b64,
        size := (stringifyEnvelope (frames2.map E.b64) sd).length,
        attempts := a, lenLog := log3 } := by
  obtain ⟨hrel, -, hhead, hch, hb⟩ := hinv
  have hclen : compressed.length = st.frames.length := compressFrames_ok_length hcomp
  have hrelc : FrameRel E orig compressed := FrameRel_compress hcomp hrel
  have hrel2 : FrameRel E orig frames2 := by
    rcases hfr2 with h | h
    · exact h ▸ hrelc
    · exact h ▸ FrameRel_take hrelc 6
  have hrel3 : FrameRel E orig frames3 := by
    rcases hfr3 with h | h
    · exact h ▸ hrel2
    · exact h ▸ FrameRel_take hrel2 6
  have hlen2 : frames2.length ≤ compressed.length := by
    rcases hfr2 with h | h
    · exact Nat.le_of_eq (h ▸ rfl)
    · subst h; simp
  have hlen3 : frames3.length ≤ frames2.length := by
    rcases hfr3 with h | h
    · exact Nat.le_of_eq (h ▸ rfl)
    · subst h; simp
  -- log after the unconditional entry for the batch re-encode
  have h1 := logInv_cons hhead (Nat.le_of_eq hclen) hch hb
  -- log after the optional ratio-based cut
  have h2 : log2.head? = some frames2.length ∧ List.Chain' (· ≤ ·) log2 ∧
      ∀ n ∈ log2, n ≤ MAX_FRAMES := by
    rcases hl2 with h | ⟨h, hfe⟩
    · have := @logInv_cons (compressed.length :: st.lenLog) frames2.length
        compressed.length rfl hlen2 h1.1 h1.2
      exact ⟨by rw [h]; rfl, by rw [h]; exact this.1, by rw [h]; exact this.2⟩
    · exact ⟨by rw [h, hfe]; rfl, by rw [h]; exact h1.1, by rw [h]; exact h1.2⟩
  -- log after the optional still-too-large cut
  have h3 : log3.head? = some frames3.length ∧ List.Chain' (· ≤ ·) log3 ∧
      ∀ n ∈ log3, n ≤ MAX_FRAMES := by
    rcases hl3 with h | ⟨h, hfe⟩
    · have := logInv_cons h2.1 hlen3 h2.2.1 h2.2.2
      exact ⟨by rw [h]; rfl, by rw [h]; exact this.1, by rw [h]; exact this.2⟩
    · exact ⟨by rw [h, hfe]; exact h2.1, by rw [h]; exact h2.2.1, by rw [h]; exact h2.2.2⟩
  exact ⟨hrel3, rfl, h3.1, h3.2.1, h3.2.2⟩

/-- The compression loop preserves the invariant. -/
theorem loopGo_preserves {F : Type} {E : SharpEngine F} {sd : Option JStr}
    {initSize : Nat} {orig : List F} :
    ∀ (fuel : Nat) (st st' : LoopSt F), loopGo E sd initSize fuel st = .ok st' →
      LoopInv E sd orig st → LoopInv E sd orig st'
  | 0, st, st', h, hinv => by
    simp only [loopGo] at h
    cases h
    exact hinv
  | fuel + 1, st, st', h, hinv => by
    simp only [loopGo] at h
    split at h
    · cases h
      exact hinv
    · split at h
      · exact absurd h (by simp)
      · rename_i compressed hcomp
        by_cases hc1 : ((st.frames.map E.len).sum = 0 ∨
            ((st.frames.map E.len).sum - (compressed.map E.len).sum) * 10 <
              (st.frames.map E.len).sum) ∧ 2 ≤ st.attempts + 1 ∧ 6 < compressed.length
        · simp only [if_pos hc1] at h
          split at h
          · cases h
            exact loopInv_new hinv hcomp (Or.inr rfl) (Or.inl rfl) (Or.inl rfl)
              (Or.inr ⟨rfl, rfl⟩)
          · split at h
            · exact loopGo_preserves fuel _ _ h
                (loopInv_new hinv hcomp (Or.inr rfl) (Or.inl rfl) (Or.inr rfl) (Or.inl rfl))
            · exact loopGo_preserves fuel _ _ h
                (loopInv_new hinv hcomp (Or.inr rfl) (Or.inl rfl) (Or.inl rfl)
                  (Or.inr ⟨rfl, rfl⟩))
        · simp only [if_neg hc1] at h
          split at h
          · cases h
            exact loopInv_new hinv hcomp (Or.inl rfl) (Or.inr ⟨rfl, rfl⟩) (Or.inl rfl)
              (Or.inr ⟨rfl, rfl⟩)
          · split at h
            · exact loopGo_preserves fuel _ _ h
                (loopInv_new hinv hcomp (Or.inl rfl) (Or.inr ⟨rfl, rfl⟩) (Or.inr rfl)
                  (Or.inl rfl))
            · exact loopGo_preserves fuel _ _ h
                (loopInv_new hinv hcomp (Or.inl rfl) (Or.inr ⟨rfl, rfl⟩) (Or.inl rfl)
                  (Or.inr ⟨rfl, rfl⟩))

/-! ### The final check and the post-loop escalation -/

/-- A successful final check passes the state through unchanged, builds the
outbound payload from the recorded base64 strings, and only happens at or
under the hard maximum. -/
theorem finalCheck_ok {F : Type} {E : SharpEngine F} {sd up : Option JStr}
    {st : LoopSt F} {r : AnalyzeOut F} (h : finalCheck E sd up st = .ok r) :
    st.size ≤ MAX_PAYLOAD_MB * MBbytes ∧
    r = ⟨st.frames, st.b64s, st.size, st.attempts, st.lenLog,
      stringifyOutbound st.b64s sd up⟩ := by
  unfold finalCheck at h
  split at h
  · exact absurd h (by simp)
  · rename_i hgt
    cases h
    exact ⟨Nat.le_of_not_lt hgt, rfl⟩

/-- A failed final check raises exactly the oversized-payload error, carrying
the measured size (which indeed exceeds the hard maximum) and the configured
maximum. -/
theorem finalCheck_error {F : Type} {E : SharpEngine F} {sd up : Option JStr}
    {st : LoopSt F} {e : AnalyzeErr} (h : finalCheck E sd up st = .error e) :
    e = .payloadTooLarge st.size MAX_PAYLOAD_MB ∧ MAX_PAYLOAD_MB * MBbytes < st.size := by
  unfold finalCheck at h
  split at h
  · rename_i hgt
    cases h
    exact ⟨rfl, hgt⟩
  · exact absurd h (by simp)

/-- Successful escalation: the result is at or under the hard maximum, the
payload is built from the recorded base64 strings, and the state is either
passed through unchanged or truncated to a prefix of the frames with the
size re-measured from it. -/
theorem escalate_ok {F : Type} {E : SharpEngine F} {sd up : Option JStr}
    {st : LoopSt F} {r : AnalyzeOut F} (h : escalate E sd up st = .ok r) :
    r.size ≤ MAX_PAYLOAD_MB * MBbytes ∧
    r.attempts = st.attempts ∧
    r.payload = stringifyOutbound r.b64s sd up ∧
    ((r.frames = st.frames ∧ r.b64s = st.b64s ∧ r.size = st.size ∧ r.lenLog = st.lenLog) ∨
     (∃ k, r.frames = st.frames.take k ∧ r.b64s = r.frames.map E.b64 ∧
        r.size = (stringifyEnvelope r.b64s sd).length ∧
        r.lenLog = r.frames.length :: st.lenLog ∧ r.frames.length ≤ st.frames.length)) := by
  simp only [escalate] at h
  split at h
  · split at h
    · obtain ⟨hle, hr⟩ := finalCheck_ok h
      subst hr
      refine ⟨hle, rfl, rfl, Or.inr ⟨targetFrameCount st.size, rfl, rfl, rfl, rfl, by simp⟩⟩
    · rename_i hgt _
      exact absurd (finalCheck_ok h).1 (by omega)
  · split at h
    · obtain ⟨hle, hr⟩ := finalCheck_ok h
      subst hr
      refine ⟨hle, rfl, rfl, Or.inr ⟨8, rfl, rfl, rfl, rfl, by simp⟩⟩
    · obtain ⟨hle, hr⟩ := finalCheck_ok h
      subst hr
      exact ⟨hle, rfl, rfl, Or.inl ⟨rfl, rfl, rfl, rfl⟩⟩

/-- Failed escalation: the error is the oversized-payload error with a
measured size above the hard maximum and the configured maximum. -/
theorem escalate_error {F : Type} {E : SharpEngine F} {sd up : Option JStr}
    {st : LoopSt F} {e : AnalyzeErr} (h : escalate E sd up st = .error e) :
    ∃ n, e = .payloadTooLarge n MAX_PAYLOAD_MB ∧ MAX_PAYLOAD_MB * MBbytes < n := by
  simp only [escalate] at h
  split at h
  · split at h
    · obtain ⟨he, hgt⟩ := finalCheck_error h
      exact ⟨_, he, hgt⟩
    · obtain ⟨he, hgt⟩ := finalCheck_error h
      exact ⟨_, he, hgt⟩
  · split at h
    · obtain ⟨he, hgt⟩ := finalCheck_error h
      exact ⟨_, he, hgt⟩
    · obtain ⟨he, hgt⟩ := finalCheck_error h
      exact ⟨_, he, hgt⟩

/-! ### The top-level run -/

/-- Master invariant of every successful run: the accepted size is at or
under the hard maximum, the returned frames are an index-aligned derivation
of the caller's input, the accepted size is the serialized size of the
recorded base64 strings and the outbound payload is built from exactly those
strings, and the ghost length log never grew and never exceeded
`MAX_FRAMES`. -/
theorem analyzeVideoFrames_ok_inv {F : Type} {E : SharpEngine F} {frames0 : List F}
    {sd up : Option JStr} {r : AnalyzeOut F}
    (h : analyzeVideoFrames E frames0 sd up = .ok r) :
    r.size ≤ MAX_PAYLOAD_MB * MBbytes ∧
    FrameRel E frames0 r.frames ∧
    r.size = (stringifyEnvelope r.b64s sd).length ∧
    r.payload = stringifyOutbound r.b64s sd up ∧
    List.Chain' (· ≤ ·) r.lenLog ∧
    (∀ n ∈ r.lenLog, n ≤ MAX_FRAMES) := by
  simp only [analyzeVideoFrames] at h
  split at h
  · exact absurd h (by simp)
  · split at h
    · -- compression path
      split at h
      · exact absurd h (by simp)
      · rename_i st hloop
        have hinit : LoopInv E sd frames0
            { frames := frames0.take MAX_FRAMES,
              b64s := (frames0.take MAX_FRAMES).map E.b64,
              size := (stringifyEnvelope ((frames0.take MAX_FRAMES).map E.b64) sd).length,
              attempts := 0, lenLog := [(frames0.take MAX_FRAMES).length] } := by
          refine ⟨FrameRel_take (FrameRel_refl E frames0) MAX_FRAMES, rfl, rfl, ?_, ?_⟩
          · exact List.chain'_singleton _
          · intro n hn
            simp only [List.mem_singleton] at hn
            subst hn
            simp [MAX_FRAMES]
        have hstinv := loopGo_preserves 4 _ st hloop hinit
        obtain ⟨hrel, hsync, hhead, hch, hb⟩ := hstinv
        obtain ⟨hle, -, hpay, hcase⟩ := escalate_ok h
        rcases hcase with ⟨hf, hb64, hsz, hlog⟩ | ⟨k, hf, hb64, hsz, hlog, hlen⟩
        · exact ⟨hle, hf ▸ hrel, by rw [hsz, hb64, hsync], hpay, hlog ▸ hch,
            hlog ▸ hb⟩
        · have hcons := logInv_cons hhead hlen hch hb
          exact ⟨hle, hf ▸ FrameRel_take hrel k, hsz, hpay, hlog ▸ hcons.1,
            hlog ▸ hcons.2⟩
    · -- no-compression path
      cases h
      rename_i hnotgt
      refine ⟨?_, FrameRel_take (FrameRel_refl E frames0) MAX_FRAMES, rfl, rfl,
        List.chain'_singleton _, ?_⟩
      · have : (stringifyEnvelope ((frames0.take MAX_FRAMES).map E.b64) sd).length ≤
            COMPRESSION_THRESHOLD_MB * MBbytes := Nat.le_of_not_lt hnotgt
        calc (stringifyEnvelope ((frames0.take MAX_FRAMES).map E.b64) sd).length
            ≤ COMPRESSION_THRESHOLD_MB * MBbytes := this
          _ ≤ MAX_PAYLOAD_MB * MBbytes := by norm_num [COMPRESSION_THRESHOLD_MB, MAX_PAYLOAD_MB, MBbytes]
      · intro n hn
        simp only [List.mem_singleton] at hn
        subst hn
        simp [MAX_FRAMES]

/-! ### Size monotonicity under truncation -/

/-- The serialized array tail of a prefix is never longer. -/
theorem jsonArrTail_take_le : ∀ (xs : List JStr) (n : Nat),
    (jsonArrTail (xs.take n)).length ≤ (jsonArrTail xs).length
  | [], n => by simp
  | x :: rest, 0 => by
    simp only [List.take_zero, jsonArrTail, jsonQuote]
    simp
  | x :: rest, n + 1 => by
    simp only [List.take_succ_cons, jsonArrTail, jsonQuote]
    have := jsonArrTail_take_le rest n
    simp only [List.length_cons, List.length_append]
    omega

/-- The serialized array tail is never empty. -/
theorem jsonArrTail_pos (xs : List JStr) : 1 ≤ (jsonArrTail xs).length := by
  cases xs <;> simp [jsonArrTail, jsonQuote]

/-- The serialized array of a prefix is never longer. -/
theorem jsonArr_take_le (xs : List JStr) (n : Nat) :
    (jsonArr (xs.take n)).length ≤ (jsonArr xs).length := by
  cases xs with
  | nil => simp
  | cons x rest =>
    cases n with
    | zero =>
      have := jsonArrTail_pos rest
      simp only [List.take_zero, jsonArr, toJ, jsonQuote]
      simp only [List.length_cons, List.length_append]
      simp
      omega
    | succ n =>
      have := jsonArrTail_take_le rest n
      simp only [List.take_succ_cons, jsonArr, jsonQuote]
      simp only [List.length_cons, List.length_append]
      omega

/-- The measured envelope of a prefix of the base64 strings is never longer
than the measured envelope of all of them. -/
theorem stringifyEnvelope_take_le (xs : List JStr) (n : Nat) (sd : Option JStr) :
    (stringifyEnvelope (xs.take n) sd).length ≤ (stringifyEnvelope xs sd).length := by
  have := jsonArr_take_le xs n
  cases sd <;>
    simp only [stringifyEnvelope, stringifyOutbound, List.length_append] <;>
    omega

/-! ### Error side of the top-level run -/

/-- Every oversized-payload error the run raises carries a measured size
above the hard maximum and the configured maximum of 20 MB. -/
theorem analyzeVideoFrames_error_ptl {F : Type} {E : SharpEngine F} {frames0 : List F}
    {sd up : Option JStr} {n m : Nat}
    (h : analyzeVideoFrames E frames0 sd up = .error (.payloadTooLarge n m)) :
    MAX_PAYLOAD_MB * MBbytes < n ∧ m = MAX_PAYLOAD_MB := by
  simp only [analyzeVideoFrames] at h
  split at h
  · simp at h
  · split at h
    · split at h
      · simp at h
      · obtain ⟨n', he, hgt⟩ := escalate_error h
        injection he with h1 h2
        exact ⟨h1 ▸ hgt, h2⟩
    · simp at h

/-! ### Claim theorems about the controller -/

/-- C1: for a non-empty batch whose initial measured payload size exceeds
`MAX_PAYLOAD_MB`, the run either completes with a final measured size at or
under the hard maximum — so the outbound call is never made with an
oversized measured payload — or raises the oversized-payload error carrying
the measured size (above the maximum) and the configured maximum. -/
theorem oversized_never_sent {F : Type} (E : SharpEngine F) (frames0 : List F)
    (sd up : Option JStr) (_h1 : frames0 ≠ [])
    (_h2 : MAX_PAYLOAD_MB * MBbytes <
      (stringifyEnvelope ((frames0.take MAX_FRAMES).map E.b64) sd).length) :
    (∀ r, analyzeVideoFrames E frames0 sd up = .ok r →
      r.size ≤ MAX_PAYLOAD_MB * MBbytes) ∧
    (∀ n m, analyzeVideoFrames E frames0 sd up = .error (.payloadTooLarge n m) →
      MAX_PAYLOAD_MB * MBbytes < n ∧ m = MAX_PAYLOAD_MB) :=
  ⟨fun _ hr => (analyzeVideoFrames_ok_inv hr).1,
   fun _ _ hh => analyzeVideoFrames_error_ptl hh⟩

/-- C2: a batch of at most `MAX_FRAMES` frames whose initial measured size
is below the compression threshold is passed through untouched: no
compression attempt runs, the output frames are exactly the input frames,
and the payload is built from their unmodified base64 encodings. -/
theorem below_threshold_noop {F : Type} (E : SharpEngine F) (frames0 : List F)
    (sd up : Option JStr) (h1 : frames0 ≠ []) (h2 : frames0.length ≤ MAX_FRAMES)
    (h3 : (stringifyEnvelope (frames0.map E.b64) sd).length <
      COMPRESSION_THRESHOLD_MB * MBbytes) :
    analyzeVideoFrames E frames0 sd up =
      .ok ⟨frames0, frames0.map E.b64,
        (stringifyEnvelope (frames0.map E.b64) sd).length, 0, [frames0.length],
        stringifyOutbound (frames0.map E.b64) sd up⟩ := by
  have htake : frames0.take MAX_FRAMES = frames0 := List.take_of_length_le h2
  have hne : ¬frames0.isEmpty = true := by
    simpa [List.isEmpty_iff] using h1
  simp only [analyzeVideoFrames, htake]
  rw [if_neg hne, if_neg (by omega)]

/-- C3: the output of every successful run is an index-aligned,
reordering-free truncation of the input — the output is no longer than the
input and the frame at output position `i` derives (by successful
re-encodes only) from the input frame at the same position `i`, so retained
frames keep their relative input order. -/
theorem output_order_preserved {F : Type} (E : SharpEngine F) (frames0 : List F)
    (sd up : Option JStr) (r : AnalyzeOut F)
    (h : analyzeVideoFrames E frames0 sd up = .ok r) :
    r.frames.length ≤ frames0.length ∧
    ∀ i (hi : i < r.frames.length), ∃ hj : i < frames0.length,
      Deriv E (frames0.get ⟨i, hj⟩) (r.frames.get ⟨i, hi⟩) :=
  (analyzeVideoFrames_ok_inv h).2.1

/-- C7 (amended): the measured size of every successful run is the
serialized length of `{frames, sensorData?}` over the recorded base64
strings — `userProfile` is appended to the outbound envelope but never
enters the size accounting. -/
theorem measured_size_omits_userProfile {F : Type} (E : SharpEngine F)
    (frames0 : List F) (sd up : Option JStr) (r : AnalyzeOut F)
    (h : analyzeVideoFrames E frames0 sd up = .ok r) :
    r.size = (stringifyEnvelope r.b64s sd).length ∧
    r.payload = stringifyOutbound r.b64s sd up :=
  ⟨(analyzeVideoFrames_ok_inv h).2.2.1, (analyzeVideoFrames_ok_inv h).2.2.2.1⟩

/-- C8: in every successful run the ghost length log — the frame-list length
recorded after the entry cap and after every later assignment — never
exceeds `MAX_FRAMES` and never grows (newest-first, so non-decreasing along
the log is non-increasing in time); and batch re-encoding itself is
one-output-per-input, so only truncation ever changes the count. -/
theorem frame_count_capped_and_monotone {F : Type} (E : SharpEngine F)
    (frames0 : List F) (sd up : Option JStr) (r : AnalyzeOut F)
    (h : analyzeVideoFrames E frames0 sd up = .ok r) :
    (∀ n ∈ r.lenLog, n ≤ MAX_FRAMES) ∧
    List.Chain' (· ≤ ·) r.lenLog ∧
    ∀ (fs out : List F) (tw th q : Nat),
      compressFrames E fs tw th q = .ok out → out.length = fs.length :=
  ⟨(analyzeVideoFrames_ok_inv h).2.2.2.2.2, (analyzeVideoFrames_ok_inv h).2.2.2.2.1,
   fun _ _ _ _ _ hc => compressFrames_ok_length hc⟩

/-- A state at or under the hard maximum passes the final check unchanged. -/
theorem finalCheck_ok_of_le {F : Type} (E : SharpEngine F) (sd up : Option JStr)
    (st : LoopSt F) (h : st.size ≤ MAX_PAYLOAD_MB * MBbytes) :
    finalCheck E sd up st =
      .ok ⟨st.frames, st.b64s, st.size, st.attempts, st.lenLog,
        stringifyOutbound st.b64s sd up⟩ := by
  unfold finalCheck
  rw [if_neg (by omega)]

/-- C10: after the compression loop, a payload within the hard maximum but
above 15 MB with more than 8 frames remaining is not accepted as-is: the
batch is truncated to its first 8 frames and the size re-measured from them
before acceptance. -/
theorem midband_truncates_to_eight {F : Type} (E : SharpEngine F) (sd up : Option JStr)
    (st : LoopSt F)
    (hs1 : st.b64s = st.frames.map E.b64)
    (hs2 : st.size = (stringifyEnvelope st.b64s sd).length)
    (hle : st.size ≤ MAX_PAYLOAD_MB * MBbytes)
    (hgt : 15 * MBbytes < st.size)
    (hlen : 8 < st.frames.length) :
    escalate E sd up st =
      .ok ⟨st.frames.take 8, (st.frames.take 8).map E.b64,
        (stringifyEnvelope ((st.frames.take 8).map E.b64) sd).length, st.attempts,
        8 :: st.lenLog,
        stringifyOutbound ((st.frames.take 8).map E.b64) sd up⟩ := by
  have hlen8 : (st.frames.take 8).length = 8 := by
    simp only [List.length_take]
    omega
  have hmono : (stringifyEnvelope ((st.frames.take 8).map E.b64) sd).length ≤ st.size := by
    rw [hs2, hs1, List.map_take]
    exact stringifyEnvelope_take_le (st.frames.map E.b64) 8 sd
  have hok := finalCheck_ok_of_le E sd up
    { frames := st.frames.take 8, b64s := (st.frames.take 8).map E.b64,
      size := (stringifyEnvelope ((st.frames.take 8).map E.b64) sd).length,
      attempts := st.attempts, lenLog := (st.frames.take 8).length :: st.lenLog }
    (Nat.le_trans hmono hle)
  simp only [escalate]
  rw [if_neg (by omega), if_pos ⟨hgt, hlen⟩, hok]
  simp [hlen8]

/-! ### Exact envelope lengths (for concrete instantiations) -/

/-- Length of the serialized array tail: three characters of punctuation per
element plus its contents, and the closing bracket. -/
theorem jsonArrTail_len : ∀ xs : List JStr,
    (jsonArrTail xs).length = (xs.map (fun s => s.length + 3)).sum + 1
  | [] => by simp [jsonArrTail]
  | x :: rest => by
    simp only [jsonArrTail, jsonQuote, List.map_cons, List.sum_cons, List.length_cons,
      List.length_append, List.length_nil]
    have := jsonArrTail_len rest
    omega

/-- Length of a non-empty serialized array. -/
theorem jsonArr_len_cons (s : JStr) (rest : List JStr) :
    (jsonArr (s :: rest)).length =
      s.length + 3 + (rest.map (fun t => t.length + 3)).sum + 1 := by
  simp only [jsonArr, jsonQuote, List.length_cons, List.length_append, List.length_nil,
    jsonArrTail_len]
  omega

/-- Length of the measured envelope with no sensor data: the 10-character
header, the array, and the closing brace. -/
theorem stringifyEnvelope_len_none (xs : List JStr) :
    (stringifyEnvelope xs none).length = (jsonArr xs).length + 11 := by
  have h10 : (toJ "\x7b\"frames\":").length = 10 := by rfl
  simp only [stringifyEnvelope, stringifyOutbound, List.length_append, List.length_cons,
    List.length_nil, h10]
  omega

/-- Length of the measured envelope of a single base64 string. -/
theorem stringifyEnvelope_singleton_len (s : JStr) :
    (stringifyEnvelope [s] none).length = s.length + 15 := by
  rw [stringifyEnvelope_len_none, jsonArr_len_cons]
  simp

/-! ### Concrete engines for instantiation -/

/-- Engine on which every sharp pipeline succeeds and returns the input
buffer; frames carry a fixed 4-character base64 encoding. -/
def idEngine : SharpEngine Nat where
  meta := fun _ => .ok ⟨100, 100⟩
  reencodeNoResize := fun f _ => .ok f
  resizeJpeg := fun f _ _ _ => .ok f
  resizePngJpeg := fun f _ _ _ => .ok f
  pngResizeJpeg := fun f _ _ _ => .ok f
  tiny := fun f => .ok f
  len := fun _ => 3
  b64 := fun _ => toJ "QUJD"

/-- Engine whose single frame base64-encodes to 22 000 000 characters. -/
def bigEngine : SharpEngine Nat :=
  { idEngine with b64 := fun _ => List.replicate 22000000 'A' }

/-- Engine whose frames base64-encode to 2 000 000 characters each. -/
def megEngine : SharpEngine Nat :=
  { idEngine with b64 := fun _ => List.replicate 2000000 'A' }

/-- Engine on which every sharp pipeline fails. -/
def failEngine : SharpEngine Nat where
  meta := fun _ => .error ()
  reencodeNoResize := fun _ _ => .error ()
  resizeJpeg := fun _ _ _ _ => .error ()
  resizePngJpeg := fun _ _ _ _ => .error ()
  pngResizeJpeg := fun _ _ _ _ => .error ()
  tiny := fun _ => .error ()
  len := fun _ => 1
  b64 := fun _ => []

/-- Result of the small sub-threshold run used by several instantiations. -/
def smallOut : AnalyzeOut Nat :=
  ⟨[7], [toJ "QUJD"], 19, 0, [1], stringifyOutbound [toJ "QUJD"] none none⟩

/-- Result of the small sub-threshold run with a `userProfile` present. -/
def smallOutUP : AnalyzeOut Nat :=
  ⟨[7], [toJ "QUJD"], 19, 0, [1],
    stringifyOutbound [toJ "QUJD"] none (some (toJ "\x7b\x7d"))⟩

/-! ### Concrete instantiations -/

/-- C7 counterexample: a run with a `userProfile` present sends a payload
whose serialized length differs from the measured size — the measured size
is not the byte size of the envelope actually sent, because `userProfile`
is excluded from the size accounting. -/
theorem measured_size_claim_counterexample :
    analyzeVideoFrames idEngine [7] none (some (toJ "\x7b\x7d")) = .ok smallOutUP ∧
    smallOutUP.payload.length ≠ smallOutUP.size :=
  ⟨rfl, by decide⟩

/-- C1 witness: a single frame whose base64 encoding measures about 22 MB. -/
theorem oversized_never_sent_witness :
    (∀ r, analyzeVideoFrames bigEngine [7] none none = .ok r →
      r.size ≤ MAX_PAYLOAD_MB * MBbytes) ∧
    (∀ n m, analyzeVideoFrames bigEngine [7] none none = .error (.payloadTooLarge n m) →
      MAX_PAYLOAD_MB * MBbytes < n ∧ m = MAX_PAYLOAD_MB) :=
  oversized_never_sent bigEngine [7] none none (by decide) (by
    have he : (([7] : List Nat).take MAX_FRAMES).map bigEngine.b64 =
        [List.replicate 22000000 'A'] := rfl
    rw [he, stringifyEnvelope_singleton_len, List.length_replicate]
    norm_num [MAX_PAYLOAD_MB, MBbytes])

/-- C2 witness: one 4-character frame measures 19 bytes, far below the
threshold, and passes through untouched. -/
theorem below_threshold_noop_witness :
    analyzeVideoFrames idEngine [7] none none =
      .ok ⟨[7], ([7] : List Nat).map idEngine.b64,
        (stringifyEnvelope (([7] : List Nat).map idEngine.b64) none).length, 0,
        [([7] : List Nat).length],
        stringifyOutbound (([7] : List Nat).map idEngine.b64) none none⟩ :=
  below_threshold_noop idEngine [7] none none (by decide) (by decide) (by decide)

/-- C3 witness: the small sub-threshold run, whose output is index-aligned
with its input. -/
theorem output_order_preserved_witness :
    smallOut.frames.length ≤ ([7] : List Nat).length ∧
    ∀ i (hi : i < smallOut.frames.length), ∃ hj : i < ([7] : List Nat).length,
      Deriv idEngine (([7] : List Nat).get ⟨i, hj⟩) (smallOut.frames.get ⟨i, hi⟩) :=
  output_order_preserved idEngine [7] none none smallOut rfl

/-- C4 witness: on an engine where every pipeline fails, the one-frame batch
aborts with that frame's index. -/
theorem frame_failure_aborts_batch_witness :
    (∀ out, compressFrames failEngine [5] 1280 720 80 ≠ .ok out) ∧
    ∃ j, j ≤ 0 ∧ ∃ hj : j < ([5] : List Nat).length,
      compressFrames failEngine [5] 1280 720 80 = .error j ∧
      compressOneFrame failEngine j (([5] : List Nat).get ⟨j, hj⟩) 1280 720 80 = .error j :=
  frame_failure_aborts_batch failEngine [5] 1280 720 80 0 (by decide) rfl

/-- C7 witness (amended claim): in the run with a `userProfile`, the
measured size is the serialized length of `{frames}` alone while the
outbound payload also carries the `userProfile` key. -/
theorem measured_size_omits_userProfile_witness :
    smallOutUP.size = (stringifyEnvelope smallOutUP.b64s none).length ∧
    smallOutUP.payload = stringifyOutbound smallOutUP.b64s none (some (toJ "\x7b\x7d")) :=
  measured_size_omits_userProfile idEngine [7] none (some (toJ "\x7b\x7d")) smallOutUP rfl

/-- C8 witness: the small run's length log is bounded by `MAX_FRAMES` and
non-increasing, and batch re-encoding preserves length on this engine. -/
theorem frame_count_capped_and_monotone_witness :
    (∀ n ∈ smallOut.lenLog, n ≤ MAX_FRAMES) ∧
    List.Chain' (· ≤ ·) smallOut.lenLog ∧
    ∀ (fs out : List Nat) (tw th q : Nat),
      compressFrames idEngine fs tw th q = .ok out → out.length = fs.length :=
  frame_count_capped_and_monotone idEngine [7] none none smallOut rfl

/-- Post-loop state with nine frames measuring about 17.2 MB: within the
hard maximum, above 15 MB, with more than 8 frames. -/
def midSt : LoopSt Nat :=
  ⟨List.replicate 9 0, List.replicate 9 (List.replicate 2000000 'A'), 18000039, 4, [9, 12]⟩

/-- C10 witness: the nine-frame 18 MB state is truncated to its first eight
frames and re-measured before acceptance. -/
theorem midband_truncates_to_eight_witness :
    escalate megEngine none none midSt =
      .ok ⟨midSt.frames.take 8, (midSt.frames.take 8).map megEngine.b64,
        (stringifyEnvelope ((midSt.frames.take 8).map megEngine.b64) none).length,
        midSt.attempts, 8 :: midSt.lenLog,
        stringifyOutbound ((midSt.frames.take 8).map megEngine.b64) none none⟩ :=
  midband_truncates_to_eight megEngine none none midSt
    (by
      show List.replicate 9 (List.replicate 2000000 'A') =
        (List.replicate 9 0).map megEngine.b64
      rw [List.map_replicate]
      rfl)
    (by
      show (18000039 : Nat) =
        (stringifyEnvelope (List.replicate 9 (List.replicate 2000000 'A')) none).length
      rw [show List.replicate 9 (List.replicate 2000000 'A') =
        (List.replicate 2000000 'A') :: List.replicate 8 (List.replicate 2000000 'A') from rfl]
      rw [stringifyEnvelope_len_none, jsonArr_len_cons, List.map_replicate,
        List.length_replicate, List.sum_replicate]
      norm_num)
    (by decide) (by decide) (by decide)
